import Mathlib

/-!
Verification of the inference orchestration layer of Diffusion-SVC
(`tools/infer_tools.py`, class `DiffusionSVC`), shallowly embedded in Lean.

Audio buffers, feature frame sequences and spectrograms are modelled as
`List ℚ` (one rational per sample or per frame); batched tensors, where the
batch dimension matters, as nested lists.  External collaborators (vocoder,
denoising model, feature extractors, units indexer) enter either as function
parameters of the embedded methods or, where a claim needs their documented
interface contract, as definitions marked `Modelled from the spec:`.
-/

namespace DiffusionSVC

/-- Python-level errors surfaced by the orchestration layer: failed `assert`
statements and failed dictionary lookups. -/
inductive PyErr where
  | assertionError : PyErr
  | keyError : PyErr
deriving DecidableEq, Repr

/-- Modelled from the spec: the vocoder's `infer` (an external collaborator,
`self.vocoder`, whose source is not under src/) turns a spectrogram plus a
pitch sequence into a waveform, producing `vocoder_hop_size` samples per
spectrogram frame (spec sections 4.4 and 6: the skipped duration is padded at
the vocoder-hop-to-sample-rate ratio). -/
def vocInfer (hop : Nat) (mel f0 : List ℚ) : List ℚ :=
  let _ := f0
  mel.flatMap (fun v => List.replicate hop v)

/-- Embeds `DiffusionSVC.mel2wav` (src/tools/infer_tools.py lines 149-157):
with `start_frame == 0` the vocoder runs on the whole spectrogram; otherwise
`mel` and `f0` are sliced from `start_frame` on, the vocoder runs on the
slice, and the waveform is left-padded with `start_frame * vocoder_hop_size`
zeros (`torch.nn.functional.pad(out_wav, (start_frame * hop, 0))`). -/
def mel2wav (hop : Nat) (mel f0 : List ℚ) (startFrame : Nat) : List ℚ :=
  if startFrame = 0 then
    vocInfer hop mel f0
  else
    List.replicate (startFrame * hop) 0 ++
      vocInfer hop (mel.drop startFrame) (f0.drop startFrame)

/-- Embeds `DiffusionSVC.infer` (lines 185-199).  `callFn` stands for the
bound `self.__call__` with everything but `k_step` and `gt_spec` fixed; it
returns the output mel.  When `k_step` is set the method asserts that
`gt_spec` is present; when `k_step` is `None` it forces `gt_spec = None`.
The resulting mel is passed to `mel2wav` with the default start frame 0. -/
def infer (callFn : Option Int → Option (List ℚ) → List ℚ) (hop : Nat)
    (f0 : List ℚ) (kStep : Option Int) (gtSpec : Option (List ℚ)) :
    Except PyErr (List ℚ) :=
  match kStep with
  | some k =>
    match gtSpec with
    | none => .error .assertionError
    | some g => .ok (mel2wav hop (callFn (some k) (some g)) f0 0)
  | none => .ok (mel2wav hop (callFn none none) f0 0)

/-- Embeds `DiffusionSVC.extract_mel` (lines 121-125): the Python body is
`assert sr == 441000` followed by
`self.vocoder.extract(audio, self.args.data.sampling_rate)`.  The vocoder's
`extract` is an external collaborator, taken as the parameter `vocExtract`,
and `samplingRate` is `self.args.data.sampling_rate`.  Note the assert
constant in the source is `441000`, not the declared default `sr=44100`. -/
def extract_mel (vocExtract : List ℚ → Nat → List ℚ) (samplingRate : Nat)
    (audio : List ℚ) (sr : Nat) : Except PyErr (List ℚ) :=
  if sr = 441000 then .ok (vocExtract audio samplingRate)
  else .error .assertionError

/-- Python runtime values that can reach `set_spk_emb_dict`: `pyNone` is
Python's `None`, `typeDict` is the builtin type object `dict` itself,
`dictInstance` an actual dictionary instance, `pathStr` a path string. -/
inductive PyVal where
  | pyNone : PyVal
  | typeDict : PyVal
  | dictInstance : List (String × List ℚ) → PyVal
  | pathStr : String → PyVal
deriving DecidableEq, Repr

/-- The observable effect of `set_spk_emb_dict`: return without storing,
store the argument directly as the dictionary, or treat the argument as a
file path and load the dictionary through `np.load`. -/
inductive SpkDictAction where
  | noop : SpkDictAction
  | storeDirect : PyVal → SpkDictAction
  | loadFromPath : PyVal → SpkDictAction
deriving DecidableEq, Repr

/-- Embeds `DiffusionSVC.set_spk_emb_dict` (lines 89-97).  Python's `is`
operator compares object identity, so the condition
`spk_emb_dict_or_path is dict` holds exactly when the argument is the
builtin type object `dict` itself — never for a dictionary instance, whose
identity differs from the type object's. -/
def set_spk_emb_dict (arg : PyVal) : SpkDictAction :=
  if arg = PyVal.pyNone then .noop
  else if arg = PyVal.typeDict then .storeDirect arg
  else .loadFromPath arg

/-- The fields of `self.args.data` consulted by `load_model` when an optional
F0 argument is left as `None` (lines 56-58). -/
structure ModelConfig where
  f0_extractor : String
  f0_min : ℚ
  f0_max : ℚ

/-- The loader-cache fields of a `DiffusionSVC` instance consulted by
`flush` (set to `None` in `__init__`, lines 19-28). -/
structure LoaderState where
  model_path : Option String
  f0_model : Option String
  f0_min : Option ℚ
  f0_max : Option ℚ
deriving DecidableEq, Repr

/-- The state right after `__init__`: every cached field is `None`. -/
def initState : LoaderState := ⟨none, none, none, none⟩

/-- Embeds the effect of `DiffusionSVC.load_model` (lines 35-67) on the
cache fields consulted by `flush`: the path is stored as given, and each F0
field stores the argument when it is not `None`, otherwise the value from
the loaded configuration (`self.args.data`). -/
def load_model (cfg : ModelConfig) (modelPath : String)
    (f0Model : Option String) (f0Min f0Max : Option ℚ) : LoaderState :=
  { model_path := some modelPath
    f0_model := some (f0Model.getD cfg.f0_extractor)
    f0_min := some (f0Min.getD cfg.f0_min)
    f0_max := some (f0Max.getD cfg.f0_max) }

/-- Embeds `DiffusionSVC.flush` (lines 82-87): reloads exactly when any of
the four cached fields compares unequal (Python `!=`) to the corresponding
argument.  Returns the new state and whether `load_model` ran. -/
def flush (cfg : ModelConfig) (st : LoaderState) (modelPath : String)
    (f0Model : Option String) (f0Min f0Max : Option ℚ) : LoaderState × Bool :=
  if st.model_path ≠ some modelPath ∨ st.f0_model ≠ f0Model ∨
      st.f0_min ≠ f0Min ∨ st.f0_max ≠ f0Max then
    (load_model cfg modelPath f0Model f0Min f0Max, true)
  else
    (st, false)

/-- Numpy's `np.tile(v, (n, 1))` for a 1-D vector `v`: a 2-D array of `n`
stacked copies of `v`. -/
def npTile (v : List ℚ) (n : Nat) : List (List ℚ) := List.replicate n v

/-- The speaker conditioning produced by the branch of `__call__` at lines
166-179: either a 2-D speaker-embedding array or the integer speaker id. -/
inductive SpkCond where
  | embRows : List (List ℚ) → SpkCond
  | idCond : Int → SpkCond
deriving DecidableEq, Repr

/-- Embeds the speaker-conditioning resolution of `DiffusionSVC.__call__`
(lines 166-179).  `units` is the batched units tensor as passed to
`__call__`: a list of batch items, each a list of frames (each a list of
channels), so Python's `len(units)` is `units.length`, the size of the first
(batch) dimension.  When the model uses a speaker encoder the code asserts
`spk_emb_dict is not None` whenever a mix dictionary is supplied or no
explicit embedding is supplied, looks an absent embedding up by
`str(spk_id)` (raising `KeyError` when missing), and tiles the embedding via
`np.tile(spk_emb, (len(units), 1))`. -/
def resolve_spk (useSpeakerEncoder : Bool)
    (spkEmbDict : Option (List (String × List ℚ)))
    (spkMixDict : Option (List (String × ℚ))) (spkEmb : Option (List ℚ))
    (spkId : Int) (units : List (List (List ℚ))) : Except PyErr SpkCond :=
  if useSpeakerEncoder then
    if (spkMixDict ≠ none ∨ spkEmb = none) ∧ spkEmbDict = none then
      .error .assertionError
    else
      match spkEmb with
      | some e => .ok (.embRows (npTile e units.length))
      | none =>
        match (spkEmbDict.getD []).lookup (toString spkId) with
        | some e => .ok (.embRows (npTile e units.length))
        | none => .error .keyError
  else
    .ok (.idCond spkId)

/-- Modelled from the spec: `cross_fade` (imported from `tools.tools`, which
is not under src/) blends the tail of the already-emitted buffer `a` from
index `idx` with the head of the new segment `b` over the overlap of length
`a.length - idx` using complementary linear ramps, keeps `a` verbatim before
`idx`, and appends the remainder of `b` (spec sections 4.5 and the
glossary's cross-fade entry). -/
def cross_fade (a b : List ℚ) (idx : Nat) : List ℚ :=
  let fadeLen := a.length - idx
  let w : Nat → ℚ := fun i => if fadeLen ≤ 1 then 1 else (i : ℚ) / ((fadeLen : ℚ) - 1)
  let blended := (List.range fadeLen).map
    (fun i => (1 - w i) * ((a.drop idx).getD i 0) + w i * ((b.take fadeLen).getD i 0))
  a.take idx ++ blended ++ b.drop fadeLen

/-- The long-audio stitching accumulator of `infer_from_long_audio` (lines
277-278): the emitted output buffer `result` and the running
`current_length` cursor. -/
structure StitchState where
  result : List ℚ
  currentLength : Int
deriving DecidableEq, Repr

/-- One iteration of the stitching loop of `infer_from_long_audio` (lines
295-305) for a segment with start frame `seg.1` and per-segment output
waveform `seg.2`; `blockSize` is `self.args.data.block_size`.  Python's
`round(start_frame * block_size)` is the integer product itself, both
operands being integers. -/
def stitch_step (blockSize : Nat) (st : StitchState) (seg : Nat × List ℚ) :
    StitchState :=
  let startSample : Int := (seg.1 * blockSize : Nat)
  let silentLength : Int := startSample - st.currentLength
  if 0 ≤ silentLength then
    { result := st.result ++ List.replicate silentLength.toNat 0 ++ seg.2
      currentLength := st.currentLength + silentLength + seg.2.length }
  else
    { result := cross_fade st.result seg.2 (st.currentLength + silentLength).toNat
      currentLength := st.currentLength + silentLength + seg.2.length }

/-- The whole stitching loop: fold `stitch_step` over the segments starting
from an empty buffer and cursor 0 (lines 277-305). -/
def stitch_run (blockSize : Nat) (segs : List (Nat × List ℚ)) : StitchState :=
  segs.foldl (stitch_step blockSize) ⟨[], 0⟩

/-- Along a stitching run, each segment's overlap with the already-emitted
buffer is at most the segment's output length (with no overlap this bound is
vacuous).  This is the well-formedness condition under which the numpy
`cross_fade` is length-correct. -/
def stitchOK (blockSize : Nat) : StitchState → List (Nat × List ℚ) → Bool
  | _, [] => true
  | st, seg :: rest =>
    decide (st.currentLength - ((seg.1 * blockSize : Nat) : Int) ≤ (seg.2.length : Int)) &&
      stitchOK blockSize (stitch_step blockSize st seg) rest

/-- Modelled from the spec: the denoising model (`self.model`, loaded from
`diffusion/unit2mel`, not under src/) returns a spectrogram with the same
frame count as its aligned conditioning inputs (spec section 6), one value
per frame here; a supplied ground-truth spectrogram seeds shallow diffusion
and contributes to each frame. -/
def modelDenoise (units f0 volume : List ℚ) (gtSpec : Option (List ℚ)) :
    List ℚ :=
  let base := List.zipWith (fun u fv => u + fv) units
    (List.zipWith (fun f v => f + v) f0 volume)
  match gtSpec with
  | none => base
  | some g => List.zipWith (fun x i => x + g.getD i 0) base (List.range base.length)

/-- Embeds `DiffusionSVC.infer_from_audio` (lines 233-254) from the point
where the external feature extractors have produced their outputs:
`unitsRaw` is the encoded units sequence (one value per frame), `f0`,
`volume` the aligned pitch and loudness frames, `mask` the sample-resolution
silence mask, `audio` the input samples.  `indexer` is the external
`UnitsIndexer` call with the ratio and speaker fixed, and `vocExtract` the
vocoder's spectrogram extractor at the model sampling rate.  Units are
index-augmented only when `index_ratio > 0`; a set `k_step` is asserted to
satisfy `0 < k_step <= 1000`, the ground-truth spectrogram is extracted from
the full audio and its last frame repeated (`torch.cat((gt_spec,
gt_spec[:, -1:, :]), 1)`); then `self.infer` runs and the waveform is
multiplied by the silence mask. -/
def infer_from_audio (hop : Nat) (indexer vocExtract : List ℚ → List ℚ)
    (audio unitsRaw f0 volume mask : List ℚ) (indexRatio : ℚ)
    (kStep : Option Int) : Except PyErr (List ℚ) :=
  let units := if 0 < indexRatio then indexer unitsRaw else unitsRaw
  let callFn := fun (_ : Option Int) (g : Option (List ℚ)) =>
    modelDenoise units f0 volume g
  match kStep with
  | some k =>
    if 0 < k ∧ k ≤ 1000 then
      let gt := vocExtract audio
      let gtSpec := gt ++ gt.drop (gt.length - 1)
      (infer callFn hop f0 (some k) (some gtSpec)).map
        (fun w => List.zipWith (fun a m => a * m) w mask)
    else .error .assertionError
  | none =>
    (infer callFn hop f0 none none).map
      (fun w => List.zipWith (fun a m => a * m) w mask)

/-- Embeds the k_step gate and the per-segment loop of
`DiffusionSVC.infer_from_long_audio` (lines 256-307).  `segSampler` stands
for the per-segment single-segment core (slicing f0/volume/gt to the
segment's frame range, `self.infer`, masking by the segment's sample range),
producing the segment's output waveform from its processed units and the
k_step; `segs` pairs each segment's start frame with its freshly encoded
units.  A set `k_step` is asserted to satisfy `0 < k_step <= 1000` before
the loop; per segment the units are index-augmented only when
`index_ratio > 0`; the outputs are stitched by the `stitch_step` fold. -/
def infer_from_long_audio (blockSize : Nat) (indexer : List ℚ → List ℚ)
    (segSampler : List ℚ → Option Int → List ℚ)
    (segs : List (Nat × List ℚ)) (indexRatio : ℚ) (kStep : Option Int) :
    Except PyErr (List ℚ) :=
  let runSegs := segs.map (fun seg =>
    (seg.1, segSampler (if 0 < indexRatio then indexer seg.2 else seg.2) kStep))
  match kStep with
  | some k =>
    if 0 < k ∧ k ≤ 1000 then .ok (stitch_run blockSize runSegs).result
    else .error .assertionError
  | none => .ok (stitch_run blockSize runSegs).result

/-- Embeds `DiffusionSVC.infer_for_realtime` (lines 201-231) from the
extractor outputs.  When `diff_jump_silence_front` is set the audio and the
feature sequences are truncated by `start_frame` (at hop resolution for the
audio) before diffusion; a set `k_step` only asserts that `audio_t` is
present (no range check) and extracts the ground-truth spectrogram from it;
the vocoder then either runs on the whole output mel (jump) or synthesizes
from `start_frame` on with zero left-padding (no jump).  No silence mask is
applied in this method. -/
def infer_for_realtime (hop : Nat) (vocExtract : List ℚ → List ℚ)
    (audio_t : Option (List ℚ)) (units f0 volume : List ℚ)
    (startFrame : Nat) (kStep : Option Int) (jump : Bool) :
    Except PyErr (List ℚ) :=
  let audio_t2 := if jump then audio_t.map (fun a => a.drop (startFrame * hop)) else audio_t
  let f02 := if jump then f0.drop startFrame else f0
  let units2 := if jump then units.drop startFrame else units
  let volume2 := if jump then volume.drop startFrame else volume
  match kStep with
  | some _ =>
    match audio_t2 with
    | none => .error .assertionError
    | some a =>
      let outMel := modelDenoise units2 f02 volume2 (some (vocExtract a))
      .ok (if jump then mel2wav hop outMel f02 0 else mel2wav hop outMel f02 startFrame)
  | none =>
    let outMel := modelDenoise units2 f02 volume2 none
    .ok (if jump then mel2wav hop outMel f02 0 else mel2wav hop outMel f02 startFrame)

/-- Embeds `DiffusionSVC.infer_from_audio_for_realtime` (lines 309-353) from
the extractor outputs (`unitsRaw`, `f0`, `volume`, `mask`, and the audio
tensor `audio_t`).  Units are index-augmented only when `index_ratio > 0`;
with `diff_jump_silence_front` the audio and feature sequences are truncated
by `start_frame` before diffusion; a set `k_step` extracts the ground-truth
spectrogram from the (possibly truncated) audio with no validation at all;
finally the jump policy runs the vocoder on the whole mel and skips the
silence mask, while the no-jump policy synthesizes from `start_frame` on
(with zero left-padding inside `mel2wav`) and multiplies by the mask.  The
method has no failure path. -/
def infer_from_audio_for_realtime (hop : Nat)
    (indexer vocExtract : List ℚ → List ℚ)
    (audio_t unitsRaw f0 volume mask : List ℚ) (startFrame : Nat)
    (indexRatio : ℚ) (kStep : Option Int) (jump : Bool) : List ℚ :=
  let units := if 0 < indexRatio then indexer unitsRaw else unitsRaw
  let audio_t2 := if jump then audio_t.drop (startFrame * hop) else audio_t
  let f02 := if jump then f0.drop startFrame else f0
  let units2 := if jump then units.drop startFrame else units
  let volume2 := if jump then volume.drop startFrame else volume
  let gtSpec := match kStep with
    | some _ => some (vocExtract audio_t2)
    | none => none
  let outMel := modelDenoise units2 f02 volume2 gtSpec
  if jump then mel2wav hop outMel f02 0
  else List.zipWith (fun w m => w * m) (mel2wav hop outMel f02 startFrame) mask

/-- Embeds `DiffusionSVC.extract_f0` (lines 105-111) from the external F0
extractor's output `raw` (one pitch value per frame, already
unvoiced-interpolated): the whole sequence is scaled by `2 ** (key / 12)`. -/
noncomputable def extract_f0 (raw : List ℝ) (key : ℚ) : List ℝ :=
  raw.map (fun v => v * Real.rpow 2 ((key : ℝ) / 12))

/-- C1: for every call to `DiffusionSVC.infer` in which `k_step` is set but
`gt_spec` is `None`, the call fails with a precondition (assertion) error
independently of the denoising model — so before the model is invoked and
never silently falling back to full diffusion — and when `k_step` is `None`
the ground-truth spectrogram is forced to `None` (whatever was passed) and
full diffusion runs. -/
theorem infer_kstep_requires_gt_spec :
    ∀ (callFn : Option Int → Option (List ℚ) → List ℚ) (hop : Nat)
      (f0 : List ℚ) (k : Int),
      infer callFn hop f0 (some k) none = .error .assertionError ∧
      ∀ gtSpec, infer callFn hop f0 none gtSpec
        = .ok (mel2wav hop (callFn none none) f0 0) :=
  fun _ _ _ _ => ⟨rfl, fun _ => rfl⟩

/-- C2 (code-bug evidence): with a loaded configuration whose F0 defaults
are not `None`, two successive `flush` calls with identical arguments that
leave the F0 parameters unset both trigger `load_model`: the first load
cached the configuration defaults, which then compare unequal to the `None`
arguments of the second call, so the "reload only if changed" contract of
the comment at line 84 is violated. -/
theorem flush_reloads_on_second_identical_call :
    (flush ⟨"crepe", 65, 800⟩ initState "exp/model.pt" none none none).2 = true ∧
    (flush ⟨"crepe", 65, 800⟩
        (flush ⟨"crepe", 65, 800⟩ initState "exp/model.pt" none none none).1
        "exp/model.pt" none none none).2 = true := by
  constructor <;> decide

/-- C7 (code-bug evidence): the sample-rate assertion of `extract_mel`
rejects the declared default rate 44100 — the source asserts `sr == 441000`
(an extra zero) — and only the impossible rate 441000 reaches the
vocoder. -/
theorem extract_mel_default_rate_rejected :
    ∀ (vocExtract : List ℚ → Nat → List ℚ) (samplingRate : Nat)
      (audio : List ℚ),
      extract_mel vocExtract samplingRate audio 44100 = .error .assertionError ∧
      extract_mel vocExtract samplingRate audio 441000
        = .ok (vocExtract audio samplingRate) :=
  fun _ _ _ => ⟨rfl, rfl⟩

/-- C8: for every raw F0 sequence and every key `k`, `extract_f0` with key
`k` equals the key-0 sequence with every frame's pitch multiplied by exactly
`2 ^ (k / 12)`. -/
theorem extract_f0_key_scaling :
    ∀ (raw : List ℝ) (key : ℚ),
      extract_f0 raw key
        = (extract_f0 raw 0).map (fun v => v * Real.rpow 2 ((key : ℝ) / 12)) := by
  intro raw key
  simp [extract_f0, List.map_map, Function.comp_def]

/-- C10: in `set_spk_emb_dict` the store-directly branch is taken only for
the builtin type object `dict` itself (identity comparison `is dict`), so
every other non-None argument — including an actual dictionary instance —
is handed to the file loader, and `None` is a no-op. -/
theorem set_spk_emb_dict_loads_all_non_none :
    (∀ d, set_spk_emb_dict (.dictInstance d) = .loadFromPath (.dictInstance d)) ∧
    (∀ s, set_spk_emb_dict (.pathStr s) = .loadFromPath (.pathStr s)) ∧
    set_spk_emb_dict .typeDict = .storeDirect .typeDict ∧
    set_spk_emb_dict .pyNone = .noop :=
  ⟨fun _ => rfl, fun _ => rfl, rfl, rfl⟩

/-- C3 (counterexample): with a units tensor of batch size 1 carrying 3
feature frames and an explicit embedding, the resolved embedding has a
single row — `np.tile(spk_emb, (len(units), 1))` tiles by the batch
dimension — not one row per feature frame as claimed. -/
theorem resolve_spk_single_row_counterexample :
    resolve_spk true none none (some [5]) 1 [[[0], [0], [0]]]
      = .ok (.embRows [[5]]) ∧
    ([[(5 : ℚ)]].length = 1 ∧ ([[(0 : ℚ)], [0], [0]] : List (List ℚ)).length = 3) :=
  ⟨rfl, rfl, rfl⟩

/-- C3 (amended): when the model uses a speaker encoder, an explicitly
supplied embedding takes precedence (with no mixing dictionary the
embedding dictionary need not even be present); otherwise the dictionary
must be present (assertion failure when absent for every mixing-dictionary
argument) and is looked up by `str(spk_id)`, failing fatally with a
`KeyError` when the id is absent and never defaulting; the resolved
embedding is tiled `len(units)` times, i.e. once per item of the units
tensor's first (batch) dimension, not once per feature frame. -/
theorem resolve_spk_resolution (dict : List (String × List ℚ))
    (mix : Option (List (String × ℚ))) (e : List ℚ) (spkId : Int)
    (units : List (List (List ℚ))) :
    resolve_spk true (some dict) none (some e) spkId units
      = .ok (.embRows (npTile e units.length)) ∧
    resolve_spk true none none (some e) spkId units
      = .ok (.embRows (npTile e units.length)) ∧
    resolve_spk true none mix none spkId units = .error .assertionError ∧
    (dict.lookup (toString spkId) = none →
      resolve_spk true (some dict) none none spkId units = .error .keyError) ∧
    (∀ e2, dict.lookup (toString spkId) = some e2 →
      resolve_spk true (some dict) none none spkId units
        = .ok (.embRows (npTile e2 units.length))) := by
  refine ⟨by simp [resolve_spk], by simp [resolve_spk], by simp [resolve_spk],
    ?_, ?_⟩
  · intro h
    simp [resolve_spk, h]
  · intro e2 h
    simp [resolve_spk, h]

/-- C3 witness: the amended resolution evaluated concretely — an empty
dictionary makes the lookup of speaker 1 fail fatally, and a dictionary
holding key "1" resolves to its embedding tiled once for the single batch
item. -/
theorem resolve_spk_resolution_witness :
    resolve_spk true (some []) none none 1 [[[0]]] = .error .keyError ∧
    resolve_spk true (some [("1", [5])]) none none 1 [[[0]]]
      = .ok (.embRows [[5]]) :=
  ⟨(resolve_spk_resolution [] none [5] 1 [[[0]]]).2.2.2.1 (by rfl),
   (resolve_spk_resolution [("1", [5])] none [5] 1 [[[0]]]).2.2.2.2 [5] (by rfl)⟩

/-- C9: with `index_ratio = 0` every entry point that accepts it passes the
raw encoded units downstream unchanged and never consults the units
indexer: each pipeline coincides with its identity-indexer variant, for
every indexer. -/
theorem index_ratio_zero_is_noop :
    ∀ (hop blockSize : Nat) (indexer vocExtract : List ℚ → List ℚ)
      (segSampler : List ℚ → Option Int → List ℚ)
      (audio audio_t unitsRaw f0 volume mask : List ℚ)
      (segs : List (Nat × List ℚ)) (kStep : Option Int) (startFrame : Nat)
      (jump : Bool),
      infer_from_audio hop indexer vocExtract audio unitsRaw f0 volume mask 0 kStep
        = infer_from_audio hop id vocExtract audio unitsRaw f0 volume mask 0 kStep ∧
      infer_from_long_audio blockSize indexer segSampler segs 0 kStep
        = infer_from_long_audio blockSize id segSampler segs 0 kStep ∧
      infer_from_audio_for_realtime hop indexer vocExtract audio_t unitsRaw f0
          volume mask startFrame 0 kStep jump
        = infer_from_audio_for_realtime hop id vocExtract audio_t unitsRaw f0
            volume mask startFrame 0 kStep jump := by
  intro hop blockSize indexer vocExtract segSampler audio audio_t unitsRaw f0
    volume mask segs kStep startFrame jump
  refine ⟨?_, ?_, ?_⟩ <;>
    simp [infer_from_audio, infer_from_long_audio,
      infer_from_audio_for_realtime, lt_irrefl]

/-- Length of the modelled `cross_fade`: when the fade window starts inside
`a` and fits inside `b`, the output has `idx + b.length` samples. -/
theorem cross_fade_length (a b : List ℚ) (idx : Nat) (h1 : idx ≤ a.length)
    (h2 : a.length - idx ≤ b.length) :
    (cross_fade a b idx).length = idx + b.length := by
  simp [cross_fade, Nat.min_eq_left h1]
  omega

/-- The cursor advance of one stitch step: in both branches
`current_length` becomes the segment's start position in samples plus the
length of the segment's output. -/
theorem stitch_step_cursor (blockSize : Nat) (st : StitchState)
    (seg : Nat × List ℚ) :
    (stitch_step blockSize st seg).currentLength
      = ((seg.1 * blockSize : Nat) : Int) + seg.2.length := by
  simp only [stitch_step]
  split <;> simp

/-- One stitch step keeps the emitted buffer length equal to the cursor,
provided the segment's overlap with the already-emitted buffer is at most
the segment's output length. -/
theorem stitch_step_invariant (blockSize : Nat) (st : StitchState)
    (seg : Nat × List ℚ)
    (hinv : (st.result.length : Int) = st.currentLength)
    (hbound : st.currentLength - ((seg.1 * blockSize : Nat) : Int)
      ≤ (seg.2.length : Int)) :
    ((stitch_step blockSize st seg).result.length : Int)
      = (stitch_step blockSize st seg).currentLength := by
  simp only [stitch_step]
  split
  · rename_i hpos
    simp
    omega
  · rename_i hneg
    simp only []
    have hidx : (st.currentLength + (((seg.1 * blockSize : Nat) : Int) - st.currentLength)).toNat
        = seg.1 * blockSize := by omega
    rw [hidx, cross_fade_length st.result seg.2 (seg.1 * blockSize)
      (by omega) (by omega)]
    push_cast
    omega

/-- Folding the stitch step over a well-formed segment list keeps the
emitted buffer length equal to the cursor. -/
theorem stitch_foldl_invariant (blockSize : Nat) :
    ∀ (segs : List (Nat × List ℚ)) (st : StitchState),
      (st.result.length : Int) = st.currentLength →
      stitchOK blockSize st segs = true →
      ((segs.foldl (stitch_step blockSize) st).result.length : Int)
        = (segs.foldl (stitch_step blockSize) st).currentLength := by
  intro segs
  induction segs with
  | nil => intro st h _; simpa using h
  | cons seg rest ih =>
    intro st h hok
    simp only [stitchOK, Bool.and_eq_true, decide_eq_true_eq] at hok
    exact ih _ (stitch_step_invariant blockSize st seg h hok.1) hok.2

/-- C4: the stitching contract of `infer_from_long_audio`: (i) in both
branches the cursor advances by `silent_length` plus the segment output
length; (ii) when `silent_length >= 0` the buffer is extended by exactly
that many zero samples followed by the segment's output verbatim (so for
`silent_length == 0` the new length is the exact sum); (iii) when
`silent_length < 0` the buffer becomes the cross-fade of the emitted tail
with the segment's head over the overlap; (iv) for a well-formed run the
final buffer length is the last segment's start position in samples plus
its output length, i.e. the last segment's end position. -/
theorem stitching_contract (blockSize : Nat) :
    (∀ (st : StitchState) (seg : Nat × List ℚ),
      (stitch_step blockSize st seg).currentLength
        = st.currentLength + (((seg.1 * blockSize : Nat) : Int) - st.currentLength)
          + seg.2.length) ∧
    (∀ (st : StitchState) (seg : Nat × List ℚ),
      0 ≤ ((seg.1 * blockSize : Nat) : Int) - st.currentLength →
      (stitch_step blockSize st seg).result
        = st.result
          ++ List.replicate (((seg.1 * blockSize : Nat) : Int) - st.currentLength).toNat 0
          ++ seg.2) ∧
    (∀ (st : StitchState) (seg : Nat × List ℚ),
      ((seg.1 * blockSize : Nat) : Int) - st.currentLength < 0 →
      (stitch_step blockSize st seg).result
        = cross_fade st.result seg.2
            (st.currentLength + (((seg.1 * blockSize : Nat) : Int) - st.currentLength)).toNat) ∧
    (∀ (segs : List (Nat × List ℚ)) (lastSeg : Nat × List ℚ),
      stitchOK blockSize ⟨[], 0⟩ (segs ++ [lastSeg]) = true →
      (stitch_run blockSize (segs ++ [lastSeg])).result.length
        = lastSeg.1 * blockSize + lastSeg.2.length) := by
  refine ⟨?_, ?_, ?_, ?_⟩
  · intro st seg
    rw [stitch_step_cursor]
    omega
  · intro st seg hpos
    simp only [stitch_step]
    rw [if_pos hpos]
  · intro st seg hneg
    simp only [stitch_step]
    rw [if_neg (by omega)]
  · intro segs lastSeg hok
    have hinv := stitch_foldl_invariant blockSize (segs ++ [lastSeg]) ⟨[], 0⟩
      (by simp) hok
    have hcur : ((segs ++ [lastSeg]).foldl (stitch_step blockSize)
          (⟨[], 0⟩ : StitchState)).currentLength
        = ((lastSeg.1 * blockSize : Nat) : Int) + lastSeg.2.length := by
      rw [List.foldl_append, List.foldl_cons, List.foldl_nil, stitch_step_cursor]
    have := hinv.trans hcur
    simp only [stitch_run]
    omega

/-- C4 witness: a concrete run with block size 2 — a first segment starting
at sample 0 with output `[1, 2]` and a second, overlapping segment starting
at sample 0 with output `[3, 4, 5]` — is well-formed, ends with a buffer of
length 3 (the last segment's end position), appends verbatim on the
non-negative branch, and cross-fades on the negative branch. -/
theorem stitching_contract_witness :
    (stitch_run 2 [(0, [1, 2]), (0, [3, 4, 5])]).result.length = 0 * 2 + 3 ∧
    (stitch_step 2 ⟨[], 0⟩ (0, [1, 2])).result
      = [] ++ List.replicate (((0 * 2 : Nat) : Int) - 0).toNat 0 ++ [1, 2] ∧
    (stitch_step 2 ⟨[1, 2], 2⟩ (0, [3, 4, 5])).result
      = cross_fade [1, 2] [3, 4, 5] ((2 : Int) + (((0 * 2 : Nat) : Int) - 2)).toNat ∧
    (stitch_step 2 ⟨[1, 2], 2⟩ (0, [3, 4, 5])).currentLength
      = 2 + (((0 * 2 : Nat) : Int) - 2) + 3 :=
  ⟨(stitching_contract 2).2.2.2 [(0, [1, 2])] (0, [3, 4, 5]) (by decide),
   (stitching_contract 2).2.1 ⟨[], 0⟩ (0, [1, 2]) (by decide),
   (stitching_contract 2).2.2.1 ⟨[1, 2], 2⟩ (0, [3, 4, 5]) (by decide),
   (stitching_contract 2).1 ⟨[1, 2], 2⟩ (0, [3, 4, 5])⟩

/-- The modelled vocoder emits `hop` samples per spectrogram frame. -/
theorem vocInfer_length (hop : Nat) (mel f0 : List ℚ) :
    (vocInfer hop mel f0).length = mel.length * hop := by
  induction mel with
  | nil => simp [vocInfer]
  | cons v t ih =>
    simp only [vocInfer, List.flatMap_cons, List.length_append,
      List.length_replicate, List.length_cons] at ih ⊢
    rw [ih]
    ring

/-- The modelled denoising model preserves the (aligned) frame count of its
conditioning inputs. -/
theorem modelDenoise_length (units f0 volume : List ℚ)
    (gtSpec : Option (List ℚ)) :
    (modelDenoise units f0 volume gtSpec).length
      = min units.length (min f0.length volume.length) := by
  cases gtSpec <;> simp [modelDenoise]

/-- Length of `mel2wav`: the zero left-padding restores the skipped
duration at `start_frame * hop` samples. -/
theorem mel2wav_length (hop : Nat) (mel f0 : List ℚ) (startFrame : Nat) :
    (mel2wav hop mel f0 startFrame).length
      = if startFrame = 0 then mel.length * hop
        else startFrame * hop + (mel.length - startFrame) * hop := by
  by_cases h : startFrame = 0 <;> simp [mel2wav, h, vocInfer_length]

/-- C5: on the same extractor outputs, `infer_from_audio_for_realtime` with
`diff_jump_silence_front = true` returns a waveform exactly
`start_frame * vocoder_hop_size` samples shorter than the
`diff_jump_silence_front = false` output, and is independent of the silence
mask; the false policy equals the mask-multiplied waveform obtained by
synthesizing only frames from `start_frame` on and left-padding with
`start_frame * vocoder_hop_size` zeros (inside `mel2wav`). -/
theorem realtime_jump_policy (hop : Nat)
    (indexer vocExtract : List ℚ → List ℚ)
    (audio_t unitsRaw f0 volume mask : List ℚ) (startFrame : Nat)
    (indexRatio : ℚ) (kStep : Option Int) (n : Nat)
    (hu : (if 0 < indexRatio then indexer unitsRaw else unitsRaw).length = n)
    (hf : f0.length = n) (hv : volume.length = n)
    (hm : mask.length = n * hop) (hs : startFrame ≤ n) :
    (infer_from_audio_for_realtime hop indexer vocExtract audio_t unitsRaw
        f0 volume mask startFrame indexRatio kStep false).length
      = (infer_from_audio_for_realtime hop indexer vocExtract audio_t
          unitsRaw f0 volume mask startFrame indexRatio kStep true).length
        + startFrame * hop ∧
    (∀ mask2, infer_from_audio_for_realtime hop indexer vocExtract audio_t
        unitsRaw f0 volume mask2 startFrame indexRatio kStep true
      = infer_from_audio_for_realtime hop indexer vocExtract audio_t
          unitsRaw f0 volume mask startFrame indexRatio kStep true) ∧
    infer_from_audio_for_realtime hop indexer vocExtract audio_t unitsRaw
        f0 volume mask startFrame indexRatio kStep false
      = List.zipWith (fun w m => w * m)
          (mel2wav hop
            (modelDenoise (if 0 < indexRatio then indexer unitsRaw else unitsRaw)
              f0 volume
              (if kStep.isSome then some (vocExtract audio_t) else none))
            f0 startFrame) mask := by
  have hkey : startFrame * hop + (n - startFrame) * hop = n * hop := by
    rw [← Nat.add_mul, Nat.add_sub_cancel' hs]
  refine ⟨?_, fun mask2 => rfl, ?_⟩
  · have hT : (infer_from_audio_for_realtime hop indexer vocExtract audio_t
        unitsRaw f0 volume mask startFrame indexRatio kStep true).length
        = (n - startFrame) * hop := by
      cases kStep <;>
        simp [infer_from_audio_for_realtime, mel2wav_length,
          modelDenoise_length, List.length_drop, hu, hf, hv]
    have hF : (infer_from_audio_for_realtime hop indexer vocExtract audio_t
        unitsRaw f0 volume mask startFrame indexRatio kStep false).length
        = n * hop := by
      cases kStep <;>
      · simp [infer_from_audio_for_realtime, mel2wav_length,
          modelDenoise_length, hu, hf, hv, hm]
        by_cases h0 : startFrame = 0
        · simp [h0]
        · simp [h0, hkey]
    rw [hT, hF]
    omega
  · cases kStep <;> rfl

/-- C5 witness: a concrete realtime call with hop 2, two frames and one
frame of leading silence — the no-jump output is two samples longer than
the jump output, the jump output ignores the mask, and the no-jump output
is the masked padded synthesis. -/
theorem realtime_jump_policy_witness :
    (infer_from_audio_for_realtime 2 id id [1, 2, 3, 4] [1, 2] [1, 2] [1, 2]
        [1, 1, 1, 1] 1 0 none false).length
      = (infer_from_audio_for_realtime 2 id id [1, 2, 3, 4] [1, 2] [1, 2]
          [1, 2] [1, 1, 1, 1] 1 0 none true).length + 1 * 2 ∧
    infer_from_audio_for_realtime 2 id id [1, 2, 3, 4] [1, 2] [1, 2] [1, 2]
        [9, 9, 9, 9] 1 0 none true
      = infer_from_audio_for_realtime 2 id id [1, 2, 3, 4] [1, 2] [1, 2]
          [1, 2] [1, 1, 1, 1] 1 0 none true :=
  ⟨(realtime_jump_policy 2 id id [1, 2, 3, 4] [1, 2] [1, 2] [1, 2]
      [1, 1, 1, 1] 1 0 none 2 (by decide) (by decide) (by decide) (by decide)
      (by decide)).1,
   (realtime_jump_policy 2 id id [1, 2, 3, 4] [1, 2] [1, 2] [1, 2]
      [1, 1, 1, 1] 1 0 none 2 (by decide) (by decide) (by decide) (by decide)
      (by decide)).2.1 [9, 9, 9, 9]⟩

/-- C6 (counterexample): an out-of-range `k_step = 1001` is not rejected by
the realtime entry points: `infer_from_audio_for_realtime` runs the whole
pipeline and returns a waveform, and `infer_for_realtime` (which only
asserts that audio is present) succeeds as well — diffusion sampling runs
instead of a precondition failure. -/
theorem kstep_out_of_range_sampled_in_realtime :
    infer_from_audio_for_realtime 1 id id [1] [1] [1] [1] [1] 0 0
        (some 1001) false = [4] ∧
    infer_for_realtime 1 id (some [1]) [1] [1] [1] 0 (some 1001) false
      = .ok [4] := by
  constructor <;>
  · simp [infer_from_audio_for_realtime, infer_for_realtime, modelDenoise,
      mel2wav, vocInfer, List.range_succ]
    norm_num

/-- C6 (amended): only `infer_from_audio` and `infer_from_long_audio`
validate a set `k_step` against (0, 1000]: both fail with an assertion
error before any sampling when it is out of range; `infer_for_realtime`
merely asserts that audio is present and samples with the unvalidated
`k_step`, and `infer_from_audio_for_realtime` performs no validation at all
and always runs the pipeline to a waveform. -/
theorem kstep_range_gate (hop blockSize : Nat)
    (indexer vocExtract : List ℚ → List ℚ)
    (segSampler : List ℚ → Option Int → List ℚ)
    (audio audio_t unitsRaw f0 volume mask : List ℚ)
    (segs : List (Nat × List ℚ)) (indexRatio : ℚ) (startFrame : Nat)
    (jump : Bool) (k : Int) (hk : ¬(0 < k ∧ k ≤ 1000)) :
    infer_from_audio hop indexer vocExtract audio unitsRaw f0 volume mask
        indexRatio (some k) = .error .assertionError ∧
    infer_from_long_audio blockSize indexer segSampler segs indexRatio
        (some k) = .error .assertionError ∧
    (∀ a, ∃ w, infer_for_realtime hop vocExtract (some a) unitsRaw f0 volume
        startFrame (some k) jump = .ok w) ∧
    infer_from_audio_for_realtime hop indexer vocExtract audio_t unitsRaw f0
        volume mask startFrame indexRatio (some k) false
      = List.zipWith (fun w m => w * m)
          (mel2wav hop
            (modelDenoise (if 0 < indexRatio then indexer unitsRaw else unitsRaw)
              f0 volume (some (vocExtract audio_t))) f0 startFrame) mask := by
  refine ⟨?_, ?_, ?_, rfl⟩
  · simp [infer_from_audio, hk]
  · simp [infer_from_long_audio, hk]
  · intro a
    cases jump <;> exact ⟨_, rfl⟩

/-- C6 witness: with `k_step = 1001` the validating entry points reject
immediately. -/
theorem kstep_range_gate_witness :
    infer_from_audio 1 id id [1] [1] [1] [1] [1] 0 (some 1001)
      = .error .assertionError ∧
    infer_from_long_audio 1 id (fun u _ => u) [] 0 (some 1001)
      = .error .assertionError :=
  ⟨(kstep_range_gate 1 1 id id (fun u _ => u) [1] [1] [1] [1] [1] [1] [] 0 0
      false 1001 (by decide)).1,
   (kstep_range_gate 1 1 id id (fun u _ => u) [1] [1] [1] [1] [1] [1] [] 0 0
      false 1001 (by decide)).2.1⟩

end DiffusionSVC
